import Mathlib

/-!
Verification of the CredLyse backend core against its specification.

Shallow embedding of the core components:
* `app/core/cache.py` — `TTLCache` (TTL + LRU cache);
* `app/middleware/rate_limit.py` — `TokenBucket`;
* `app/services/progress_service.py` — quiz grading, video completion,
  enrollment-completion derivation;
* `app/services/certificate_service.py` — certificate eligibility and
  idempotent issuance;
* the batch processor of `app/services/processing_service.py`
  (modelled from the specification; the module is absent from the sources,
  only its unit tests are present).

Time is modelled as an explicit rational-valued parameter threaded through
the cache and the token bucket; the relational store is modelled as lists
of records with explicit state passing.
-/

namespace CredLyse

/-! ## `app/core/cache.py` : `CacheEntry` and `TTLCache` -/

/-- A single cache entry with TTL support (`CacheEntry` dataclass). -/
structure CacheEntry (α : Type) where
  value : α
  expires_at : ℚ
deriving Repr, DecidableEq

/-- `CacheEntry.is_expired`: `time.time() > self.expires_at`, with the
current time passed explicitly. -/
def CacheEntry.is_expired {α : Type} (e : CacheEntry α) (now : ℚ) : Bool :=
  now > e.expires_at

/-- The `OrderedDict` backing a `TTLCache`: association list, front =
oldest (least recently used), back = most recently used. -/
abbrev CacheDict (α : Type) := List (String × CacheEntry α)

/-- `self._cache.get(key)`: first binding of the key (bindings are unique
in an `OrderedDict`). -/
def CacheDict.lookup {α : Type} (l : CacheDict α) (k : String) :
    Option (CacheEntry α) :=
  (l.find? (fun p => p.1 = k)).map (fun p => p.2)

/-- `del self._cache[key]`: remove the binding of a key. -/
def CacheDict.erase {α : Type} (l : CacheDict α) (k : String) : CacheDict α :=
  l.filter (fun p => ¬ (p.1 = k))

/-- `self._cache.move_to_end(key)`: move the key's binding to the back
(most recently used); no change when the key is absent. -/
def CacheDict.moveToEnd {α : Type} (l : CacheDict α) (k : String) : CacheDict α :=
  match l.lookup k with
  | none => l
  | some e => l.erase k ++ [(k, e)]

/-- In-memory TTL cache with LRU eviction (`TTLCache`). -/
structure TTLCache (α : Type) where
  cache : CacheDict α
  max_size : Nat
  default_ttl : ℚ
  hits : Nat
  misses : Nat
deriving Repr, DecidableEq

/-- `TTLCache(max_size, default_ttl)`: fresh cache. -/
def TTLCache.init (α : Type) (max_size : Nat) (default_ttl : ℚ) : TTLCache α :=
  { cache := [], max_size := max_size, default_ttl := default_ttl
    hits := 0, misses := 0 }

/-- `TTLCache.get`: miss when absent; expired entries are deleted and
counted as a miss; a hit moves the key to most-recently-used. -/
def TTLCache.get {α : Type} (c : TTLCache α) (key : String) (now : ℚ) :
    Option α × TTLCache α :=
  match c.cache.lookup key with
  | none => (none, { c with misses := c.misses + 1 })
  | some entry =>
    if entry.is_expired now then
      (none, { c with cache := c.cache.erase key, misses := c.misses + 1 })
    else
      (some entry.value,
        { c with cache := c.cache.moveToEnd key, hits := c.hits + 1 })

/-- The eviction loop of `TTLCache.set`:
`while len(self._cache) >= self._max_size: self._cache.popitem(last=False)`.
`popitem` on an empty dict raises `KeyError`, modelled as `none`. -/
def TTLCache.evictLoop {α : Type} (max_size : Nat) :
    CacheDict α → Option (CacheDict α)
  | [] => if max_size ≤ 0 then none else some []
  | x :: rest =>
    if max_size ≤ (x :: rest).length then TTLCache.evictLoop max_size rest
    else some (x :: rest)

/-- `ttl = ttl or self._default_ttl`: a `None` or zero ttl falls back to
the cache's default. -/
def TTLCache.resolveTtl {α : Type} (c : TTLCache α) (ttl : Option ℚ) : ℚ :=
  match ttl with
  | some t => if t = 0 then c.default_ttl else t
  | none => c.default_ttl

/-- `TTLCache.set`: resolve the ttl, evict oldest entries while at or
above capacity, then insert the key as most-recently-used.  `none` models
the `KeyError` raised when `max_size = 0` forces `popitem` on an empty
dict. -/
def TTLCache.set {α : Type} (c : TTLCache α) (key : String) (value : α)
    (ttl : Option ℚ) (now : ℚ) : Option (TTLCache α) :=
  match TTLCache.evictLoop c.max_size c.cache with
  | none => none
  | some l =>
    some { c with
      cache := l.erase key ++ [(key, ⟨value, now + c.resolveTtl ttl⟩)] }

/-- `TTLCache.delete`: remove a key, reporting whether it was present. -/
def TTLCache.delete {α : Type} (c : TTLCache α) (key : String) :
    Bool × TTLCache α :=
  if (c.cache.lookup key).isSome then
    (true, { c with cache := c.cache.erase key })
  else
    (false, c)

/-- `TTLCache.clear`: drop all entries and reset the counters. -/
def TTLCache.clear {α : Type} (c : TTLCache α) : TTLCache α :=
  { c with cache := [], hits := 0, misses := 0 }

/-- One cache operation, for reasoning about operation sequences. -/
inductive CacheOp (α : Type) where
  | get (key : String) (now : ℚ)
  | set (key : String) (value : α) (ttl : Option ℚ) (now : ℚ)
  | delete (key : String)
  | clear
deriving Repr

/-- Apply one operation; `none` when `set` raises. -/
def TTLCache.applyOp {α : Type} (c : TTLCache α) :
    CacheOp α → Option (TTLCache α)
  | CacheOp.get k now => some (c.get k now).2
  | CacheOp.set k v ttl now => c.set k v ttl now
  | CacheOp.delete k => some (c.delete k).2
  | CacheOp.clear => some c.clear

/-- Run a sequence of operations. -/
def TTLCache.runOps {α : Type} (c : TTLCache α) :
    List (CacheOp α) → Option (TTLCache α)
  | [] => some c
  | op :: ops =>
    match c.applyOp op with
    | none => none
    | some c' => TTLCache.runOps c' ops

/-! ## `app/middleware/rate_limit.py` : `TokenBucket` -/

/-- Token bucket for rate limiting (`TokenBucket` dataclass). -/
structure TokenBucket where
  capacity : Nat
  refill_rate : ℚ
  tokens : ℚ
  last_refill : ℚ
deriving Repr, DecidableEq

/-- `TokenBucket.__post_init__`: a fresh bucket starts full, with
`last_refill` set to the current time. -/
def TokenBucket.create (capacity : Nat) (refill_rate : ℚ) (now : ℚ) :
    TokenBucket :=
  { capacity := capacity, refill_rate := refill_rate
    tokens := (capacity : ℚ), last_refill := now }

/-- `TokenBucket._refill`: add `elapsed * refill_rate` tokens, capped at
`capacity`, and stamp `last_refill`. -/
def TokenBucket.refill (b : TokenBucket) (now : ℚ) : TokenBucket :=
  { b with
    tokens := min (b.capacity : ℚ) (b.tokens + (now - b.last_refill) * b.refill_rate)
    last_refill := now }

/-- `TokenBucket.consume(tokens=1)`: refill first, then consume when at
least `n` tokens are available; a denied consume leaves the (refilled)
token count unchanged. -/
def TokenBucket.consume (b : TokenBucket) (now : ℚ) (n : Nat := 1) :
    Bool × TokenBucket :=
  let b' := b.refill now
  if (n : ℚ) ≤ b'.tokens then (true, { b' with tokens := b'.tokens - (n : ℚ) })
  else (false, b')

/-- Results of `n` consecutive `consume(1)` calls at one instant. -/
def TokenBucket.consumeSeq (b : TokenBucket) (now : ℚ) : Nat → List Bool
  | 0 => []
  | n + 1 =>
    let r := b.consume now 1
    r.1 :: TokenBucket.consumeSeq r.2 now n

/-! ## Data model (`app/models/`) -/

/-- `WatchStatus` enum (`app/models/enums.py`). -/
inductive WatchStatus where
  | NOT_STARTED
  | IN_PROGRESS
  | WATCHED
deriving Repr, DecidableEq

/-- One quiz question inside `Video.quiz_data["questions"]`; grading reads
`question.get("answer", "")`, so a missing `answer` key is the empty
string. -/
structure Question where
  question : String
  options : List String
  answer : String
deriving Repr, DecidableEq

/-- `Video` model: the fields the core reads.  `quiz_data = none` models a
falsy `quiz_data` (NULL or empty dict); `some qs` models a dict whose
`questions` key holds `qs` (a dict without the key behaves as `some []`,
matching `quiz_data.get("questions", [])`). -/
structure Video where
  id : Nat
  playlist_id : Nat
  title : String
  has_quiz : Bool
  quiz_data : Option (List Question)
deriving Repr, DecidableEq

/-- `Playlist` model: the fields the core reads. -/
structure Playlist where
  id : Nat
  title : String
deriving Repr, DecidableEq

/-- `Enrollment` model: the fields the core reads. -/
structure Enrollment where
  id : Nat
  user_id : Nat
  playlist_id : Nat
  is_completed : Bool
  certificate_url : Option String
deriving Repr, DecidableEq

/-- `VideoProgress` model: the fields the core reads. -/
structure VideoProgress where
  enrollment_id : Nat
  video_id : Nat
  watch_status : WatchStatus
  seconds_watched : Nat
  quiz_score : Option Nat
  is_quiz_passed : Bool
deriving Repr, DecidableEq

/-- `Certificate` model: the fields the core reads (`uuid` ids modelled
as naturals). -/
structure Certificate where
  id : Nat
  user_id : Nat
  playlist_id : Nat
  issued_at : ℚ
  pdf_url : Option String
deriving Repr, DecidableEq

/-- `User` model: the fields the core reads. -/
structure User where
  id : Nat
  full_name : String
deriving Repr, DecidableEq

/-- The relational store as seen by the core services. -/
structure Db where
  playlists : List Playlist
  videos : List Video
  enrollments : List Enrollment
  progresses : List VideoProgress
  certificates : List Certificate
deriving Repr, DecidableEq

/-- Errors raised by the services (`HTTPException`s and a crash case). -/
inductive ApiError where
  | notFound (detail : String)
  | badRequest (detail : String)
  | preconditionFailed (message : String) (missing_requirements : List String)
  | internal
deriving Repr, DecidableEq

/-- `select(Video).where(Video.id == video_id) ... scalar_one_or_none`. -/
def Db.findVideo (db : Db) (video_id : Nat) : Option Video :=
  db.videos.find? (fun v => v.id = video_id)

/-- `select(Playlist).where(Playlist.id == playlist_id)`. -/
def Db.findPlaylist (db : Db) (playlist_id : Nat) : Option Playlist :=
  db.playlists.find? (fun p => p.id = playlist_id)

/-- `select(Enrollment).where(user_id == ..., playlist_id == ...)`. -/
def Db.findEnrollment (db : Db) (user_id playlist_id : Nat) :
    Option Enrollment :=
  db.enrollments.find?
    (fun e => e.user_id = user_id ∧ e.playlist_id = playlist_id)

/-- `select(VideoProgress).where(enrollment_id == ..., video_id == ...)`. -/
def Db.findProgress (db : Db) (enrollment_id video_id : Nat) :
    Option VideoProgress :=
  db.progresses.find?
    (fun p => p.enrollment_id = enrollment_id ∧ p.video_id = video_id)

/-- `select(Certificate).where(user_id == ..., playlist_id == ...)`. -/
def Db.findCertificate (db : Db) (user_id playlist_id : Nat) :
    Option Certificate :=
  db.certificates.find?
    (fun c => c.user_id = user_id ∧ c.playlist_id = playlist_id)

/-- The `Playlist.videos` relationship: all videos of the playlist. -/
def Db.playlistVideos (db : Db) (playlist_id : Nat) : List Video :=
  db.videos.filter (fun v => v.playlist_id = playlist_id)

/-- All progress records of one enrollment
(`select(VideoProgress).where(VideoProgress.enrollment_id == ...)`). -/
def Db.enrollmentProgresses (db : Db) (enrollment_id : Nat) :
    List VideoProgress :=
  db.progresses.filter (fun p => p.enrollment_id = enrollment_id)

/-- `progress_map = \x7bp.video_id: p for p in progress_records\x7d` followed
by `progress_map.get(video.id)`: a Python dict comprehension keeps the
last record for a duplicated key, hence the lookup from the reversed
list. -/
def progressMapGet (records : List VideoProgress) (video_id : Nat) :
    Option VideoProgress :=
  records.reverse.find? (fun p => p.video_id = video_id)

/-- ORM mutation of a fetched `VideoProgress` row: rewrite the record
with the row's (enrollment_id, video_id) key in place. -/
def Db.updateProgress (db : Db) (enrollment_id video_id : Nat)
    (f : VideoProgress → VideoProgress) : Db :=
  { db with
    progresses := db.progresses.map
      (fun p =>
        if p.enrollment_id = enrollment_id ∧ p.video_id = video_id then f p
        else p) }

/-- ORM mutation of a fetched `Enrollment` row. -/
def Db.updateEnrollment (db : Db) (enrollment_id : Nat)
    (f : Enrollment → Enrollment) : Db :=
  { db with
    enrollments := db.enrollments.map
      (fun e => if e.id = enrollment_id then f e else e) }

/-! ## `app/services/progress_service.py` -/

/-- Python `str.strip()`: drop leading and trailing whitespace, modelled
character-list-wise. -/
def pyStrip (s : String) : String :=
  ⟨((s.data.dropWhile Char.isWhitespace).reverse.dropWhile
      Char.isWhitespace).reverse⟩

/-- Python `str.lower()`, modelled character-wise (ASCII case folding). -/
def pyLower (s : String) : String :=
  ⟨s.data.map Char.toLower⟩

/-- Python `str.strip().lower()` applied before comparison. -/
def normalizeAnswer (s : String) : String :=
  pyLower (pyStrip s)

/-- `answers.get(str(idx), "")`: the submitted answer for a stringified
index, defaulting to the empty string. -/
def answersGet (answers : List (String × String)) (key : String) : String :=
  ((answers.find? (fun p => p.1 = key)).map (fun p => p.2)).getD ""

/-- The grading loop of `submit_quiz`: count the questions whose
submitted answer equals the correct answer after `strip().lower()`. -/
def gradeCount (questions : List Question)
    (answers : List (String × String)) : Nat :=
  questions.enum.countP
    (fun p =>
      normalizeAnswer (answersGet answers (toString p.1))
        == normalizeAnswer p.2.answer)

/-- The result dict returned by `submit_quiz`. -/
structure QuizResult where
  video_id : Nat
  score : Nat
  passed : Bool
  correct_count : Nat
  total_questions : Nat
  message : String
deriving Repr, DecidableEq

/-- `check_and_update_enrollment_completion`: returns the updated store
and the `all_passed` flag.  The enrollment is marked completed when all
quiz-bearing videos of the playlist have a passing progress record and it
was not already completed; a missing playlist or a playlist without
quiz-bearing videos short-circuits to `false`. -/
def check_and_update_enrollment_completion (db : Db) (enrollment : Enrollment)
    (playlist_id : Nat) : Db × Bool :=
  match db.findPlaylist playlist_id with
  | none => (db, false)
  | some _ =>
    let videos_with_quizzes :=
      (db.playlistVideos playlist_id).filter (fun v => v.has_quiz)
    if videos_with_quizzes.isEmpty then (db, false)
    else
      let progress_records := db.enrollmentProgresses enrollment.id
      let all_passed := videos_with_quizzes.all
        (fun v =>
          match progressMapGet progress_records v.id with
          | none => false
          | some vp => vp.is_quiz_passed)
      if all_passed ∧ ¬ enrollment.is_completed then
        (db.updateEnrollment enrollment.id
          (fun e => { e with is_completed := true }), all_passed)
      else (db, all_passed)

/-- `submit_quiz`: grade a quiz submission and store the result.  Mirrors
the source: video lookup (404), quiz presence check (400), enrollment
lookup (404), lazy progress creation at IN_PROGRESS, empty-quiz check
(400), grading, score/pass update, and completion derivation when
passed. -/
def submit_quiz (db : Db) (user : User) (video_id : Nat)
    (answers : List (String × String)) :
    Except ApiError (Db × VideoProgress × QuizResult) :=
  match db.findVideo video_id with
  | none =>
    Except.error (ApiError.notFound
      ("Video with ID " ++ toString video_id ++ " not found"))
  | some video =>
    if ¬ video.has_quiz ∨ video.quiz_data = none then
      Except.error (ApiError.badRequest "This video does not have a quiz")
    else
      match db.findEnrollment user.id video.playlist_id with
      | none => Except.error (ApiError.notFound "Not enrolled in this course")
      | some enrollment =>
        let db1 :=
          match db.findProgress enrollment.id video_id with
          | some _ => db
          | none =>
            { db with progresses := db.progresses ++
                [({ enrollment_id := enrollment.id, video_id := video_id
                    watch_status := WatchStatus.IN_PROGRESS
                    seconds_watched := 0, quiz_score := none
                    is_quiz_passed := false } : VideoProgress)] }
        let questions := video.quiz_data.getD []
        if questions.length = 0 then
          Except.error (ApiError.badRequest "Quiz has no questions")
        else
          let correct_count := gradeCount questions answers
          let score := correct_count * 100 / questions.length
          let passed := decide (75 ≤ score)
          let db2 := db1.updateProgress enrollment.id video_id
            (fun p =>
              { p with quiz_score := some score, is_quiz_passed := passed })
          let db3 :=
            if passed then
              (check_and_update_enrollment_completion db2 enrollment
                video.playlist_id).1
            else db2
          match db3.findProgress enrollment.id video_id with
          | none => Except.error ApiError.internal
          | some progress =>
            Except.ok (db3, progress,
              { video_id := video_id, score := score, passed := passed
                correct_count := correct_count
                total_questions := questions.length
                message :=
                  if passed then "Quiz passed! Great job!"
                  else "Quiz not passed. You need 75% to pass." })

/-- `complete_video`: mark a video WATCHED; auto-pass its quiz fields
when the video has no quiz.  Does not invoke completion derivation. -/
def complete_video (db : Db) (user : User) (video_id : Nat) :
    Except ApiError (Db × VideoProgress) :=
  match db.findVideo video_id with
  | none =>
    Except.error (ApiError.notFound
      ("Video with ID " ++ toString video_id ++ " not found"))
  | some video =>
    match db.findEnrollment user.id video.playlist_id with
    | none => Except.error (ApiError.notFound "Not enrolled in this course")
    | some enrollment =>
      match db.findProgress enrollment.id video_id with
      | none =>
        Except.error (ApiError.notFound "Progress not found. Call /start first.")
      | some _ =>
        let db1 := db.updateProgress enrollment.id video_id
          (fun p =>
            let p1 := { p with watch_status := WatchStatus.WATCHED }
            if ¬ video.has_quiz then
              { p1 with is_quiz_passed := true, quiz_score := some 100 }
            else p1)
        match db1.findProgress enrollment.id video_id with
        | none => Except.error ApiError.internal
        | some progress => Except.ok (db1, progress)

/-! ## `app/services/certificate_service.py` -/

/-- The missing-requirement descriptions one video contributes in
`check_eligibility` (the quote characters the f-strings put around the
title are omitted): a video without a progress record contributes one
description and skips the remaining checks (`continue`); a video with a
record contributes one description per failed check (not WATCHED, quiz
not passed). -/
def videoMissing (records : List VideoProgress) (video : Video) :
    List String :=
  match progressMapGet records video.id with
  | none => ["Video " ++ video.title ++ " not started"]
  | some progress =>
    (if progress.watch_status ≠ WatchStatus.WATCHED then
      ["Video " ++ video.title ++ " not fully watched"]
     else []) ++
    (if ¬ progress.is_quiz_passed then
      ["Video " ++ video.title ++ " quiz not passed"]
     else [])

/-- The accumulated `missing` list of the eligibility loop. -/
def eligibilityMissing (videos : List Video)
    (records : List VideoProgress) : List String :=
  (videos.map (videoMissing records)).flatten

/-- `check_eligibility`: strict certificate criteria over every video of
the playlist; also fails for a missing enrollment or an empty course. -/
def check_eligibility (db : Db) (user_id playlist_id : Nat) :
    Bool × List String :=
  match db.findEnrollment user_id playlist_id with
  | none => (false, ["User is not enrolled in this course"])
  | some enrollment =>
    let videos := db.playlistVideos playlist_id
    if videos.isEmpty then (false, ["Course has no videos"])
    else
      let records := db.enrollmentProgresses enrollment.id
      let missing := eligibilityMissing videos records
      if missing.isEmpty then (true, []) else (false, missing)

/-- `generate_certificate_pdf`: the artifact URL stored for a
certificate (the rendering itself is out of scope). -/
def generate_certificate_pdf (cert : Certificate) : String :=
  "/static/certificates/" ++ toString cert.id ++ ".pdf"

/-- `issue_certificate`: idempotent issuance.  An existing certificate is
returned unchanged before any other step; otherwise eligibility is
checked (structured 400 on failure), and on success the certificate is
created (with the externally supplied fresh id standing for
`uuid.uuid4()`), the artifact URL stored, and the enrollment marked
completed. -/
def issue_certificate (db : Db) (user : User) (playlist_id : Nat)
    (fresh_id : Nat) (now : ℚ) : Except ApiError (Db × Certificate) :=
  match db.findCertificate user.id playlist_id with
  | some existing_cert => Except.ok (db, existing_cert)
  | none =>
    let elig := check_eligibility db user.id playlist_id
    if ¬ elig.1 then
      Except.error
        (ApiError.preconditionFailed "Not eligible for certificate yet" elig.2)
    else
      match db.findPlaylist playlist_id with
      | none => Except.error ApiError.internal
      | some _playlist =>
        let certificate : Certificate :=
          { id := fresh_id, user_id := user.id, playlist_id := playlist_id
            issued_at := now, pdf_url := none }
        let pdf_url := generate_certificate_pdf certificate
        let certificate := { certificate with pdf_url := some pdf_url }
        match db.findEnrollment user.id playlist_id with
        | none => Except.error ApiError.internal
        | some enrollment =>
          let db1 :=
            { db with certificates := db.certificates ++ [certificate] }
          let db2 := db1.updateEnrollment enrollment.id
            (fun e =>
              { e with is_completed := true, certificate_url := some pdf_url })
          Except.ok (db2, certificate)

/-! ## Batch processor (`app/services/processing_service.py`) -/

/-- Modelled from the spec: the module `app/services/processing_service.py`
is missing from the repository sources (only its unit tests are present).
One batch item: whether it is already in a terminal analyzed state, and
the outcome its external analysis call would produce. -/
structure BatchItem where
  alreadyAnalyzed : Bool
  analysis : Except String Unit
deriving Repr

/-- Modelled from the spec: the aggregate counts returned by the batch
processor, with the human-readable message of the empty-batch path. -/
structure BatchCounts where
  processed : Nat
  failed : Nat
  skipped : Nat
  message : Option String
deriving Repr, DecidableEq

/-- Modelled from the spec: per-item accounting — an already-analyzed
item is skipped without invoking the external call; an external-call
exception is caught and counted as failed; a successful call is counted
as processed. -/
def batchStep (acc : BatchCounts) (item : BatchItem) : BatchCounts :=
  if item.alreadyAnalyzed then { acc with skipped := acc.skipped + 1 }
  else
    match item.analysis with
    | Except.ok _ => { acc with processed := acc.processed + 1 }
    | Except.error _ => { acc with failed := acc.failed + 1 }

/-- Modelled from the spec: `process_course_content` aggregates counts
across all items of the batch; an empty batch returns immediately with
all-zero counts and a nothing-to-do message. -/
def process_course_content (items : List BatchItem) : BatchCounts :=
  if items.isEmpty then
    { processed := 0, failed := 0, skipped := 0
      message := some "No pending videos to process" }
  else
    items.foldl batchStep
      { processed := 0, failed := 0, skipped := 0, message := none }

/-! ## Specification-side predicates (stated from the spec's wording,
to be compared with the code-derived definitions above) -/

/-- An item the batch processor skips (already in a terminal analyzed
state). -/
def itemSkipped (it : BatchItem) : Bool :=
  it.alreadyAnalyzed

/-- An item whose external analysis call raises. -/
def itemFailed (it : BatchItem) : Bool :=
  !it.alreadyAnalyzed &&
    (match it.analysis with
     | Except.ok _ => false
     | Except.error _ => true)

/-- An item whose external analysis call succeeds. -/
def itemProcessed (it : BatchItem) : Bool :=
  !it.alreadyAnalyzed &&
    (match it.analysis with
     | Except.ok _ => true
     | Except.error _ => false)

/-- The spec's grading rule, stated by primitive recursion over the
question list carrying the 0-based index: for the question at index `i`,
look up the stringified index in the answer map (missing keys yield the
empty string) and compare case-insensitively after trimming. -/
def specCorrectCount (answers : List (String × String)) :
    Nat → List Question → Nat
  | _, [] => 0
  | i, q :: qs =>
    (if normalizeAnswer (answersGet answers (toString i))
        = normalizeAnswer q.answer then 1 else 0)
    + specCorrectCount answers (i + 1) qs

/-- The spec's per-video completion condition for the quiz-only
derivation: the enrollment has a progress record for the video with
`is_quiz_passed = true`. -/
def quizPassedFor (records : List VideoProgress) (v : Video) : Prop :=
  ∃ vp, progressMapGet records v.id = some vp ∧ vp.is_quiz_passed = true

/-- The spec's per-video certificate requirement: a progress record
exists, it is WATCHED, and its quiz is passed. -/
def videoRequirementMet (records : List VideoProgress) (v : Video) : Prop :=
  ∃ vp, progressMapGet records v.id = some vp ∧
    vp.watch_status = WatchStatus.WATCHED ∧ vp.is_quiz_passed = true

/-- Number of missing-requirement descriptions one video contributes to
the eligibility report: a video without a progress record contributes
one; a video with a record contributes one per failed check. -/
def unmetCount (records : List VideoProgress) (v : Video) : Nat :=
  match progressMapGet records v.id with
  | none => 1
  | some vp =>
    (if vp.watch_status ≠ WatchStatus.WATCHED then 1 else 0) +
    (if ¬ vp.is_quiz_passed then 1 else 0)

/-! ## Concrete fixtures for witnesses and counterexamples -/

/-- A user used by the concrete scenarios. -/
def userC : User := { id := 7, full_name := "U" }

/-- User 7's enrollment (id 100) in course 1, not yet completed. -/
def enrollC : Enrollment :=
  { id := 100, user_id := 7, playlist_id := 1, is_completed := false
    certificate_url := none }

/-- A quiz video whose two correct answers carry case and whitespace
variants (`"a"` and `"B "`). -/
def videoQuizC : Video :=
  { id := 10, playlist_id := 1, title := "V10", has_quiz := true
    quiz_data := some
      [{ question := "q1", options := [], answer := "a" },
       { question := "q2", options := [], answer := "B " }] }

/-- Course 1 with one two-question quiz video, user 7 enrolled. -/
def dbQuiz : Db :=
  { playlists := [{ id := 1, title := "Course" }]
    videos := [videoQuizC]
    enrollments := [enrollC]
    progresses := []
    certificates := [] }

/-- The progress record stored by a fully correct submission against
`dbQuiz`. -/
def progQuizDone : VideoProgress :=
  { enrollment_id := 100, video_id := 10
    watch_status := WatchStatus.IN_PROGRESS, seconds_watched := 0
    quiz_score := some 100, is_quiz_passed := true }

/-- `dbQuiz` after a fully correct submission (progress stored, quiz
passed, completion derivation marks the enrollment complete). -/
def dbQuizDone : Db :=
  { dbQuiz with
    enrollments := [{ id := 100, user_id := 7, playlist_id := 1
                      is_completed := true, certificate_url := none }]
    progresses := [progQuizDone] }

/-- The result dict of that submission. -/
def resQuizDone : QuizResult :=
  { video_id := 10, score := 100, passed := true, correct_count := 2
    total_questions := 2, message := "Quiz passed! Great job!" }

/-- `dbQuiz` with the passing progress row already stored but the
enrollment not yet marked complete: the state completion derivation
sees. -/
def dbQuizPassed : Db := { dbQuiz with progresses := [progQuizDone] }

/-- Course 1 whose single quiz question has the empty string as its
correct answer, user 7 enrolled. -/
def dbEmptyAnswer : Db :=
  { dbQuiz with
    videos := [{ id := 10, playlist_id := 1, title := "V10", has_quiz := true
                 quiz_data := some
                   [{ question := "q1", options := [], answer := "" }] }] }

/-- Course 1 with no videos at all, user 7 enrolled, no certificate. -/
def dbEmptyCourse : Db :=
  { playlists := [{ id := 1, title := "Course" }]
    videos := []
    enrollments := [enrollC]
    progresses := []
    certificates := [] }

/-- A quiz-less video in course 1. -/
def videoNQ : Video :=
  { id := 10, playlist_id := 1, title := "V10", has_quiz := false
    quiz_data := none }

/-- An IN_PROGRESS, quiz-not-passed progress row for video 10. -/
def progNQ : VideoProgress :=
  { enrollment_id := 100, video_id := 10
    watch_status := WatchStatus.IN_PROGRESS, seconds_watched := 5
    quiz_score := none, is_quiz_passed := false }

/-- Course 1 with one quiz-less video, user 7 enrolled with an
IN_PROGRESS record. -/
def dbNoQuizVideo : Db :=
  { playlists := [{ id := 1, title := "Course" }]
    videos := [videoNQ]
    enrollments := [enrollC]
    progresses := [progNQ]
    certificates := [] }

/-- A store already holding a certificate for (user 7, course 1). -/
def dbWithCert : Db :=
  { dbNoQuizVideo with
    certificates := [{ id := 42, user_id := 7, playlist_id := 1
                       issued_at := 0, pdf_url := some "/static/certificates/42.pdf" }] }

/-- A fresh two-slot cache over `Nat` values. -/
def cacheTwo : TTLCache Nat := TTLCache.init Nat 2 10

/-- `cacheTwo` after `set "a"` then `set "b"` (both within capacity). -/
def cacheTwoAB : Option (TTLCache Nat) :=
  (cacheTwo.set "a" 1 none 0).bind (fun c => c.set "b" 2 none 0)

/-- `cacheTwoAB` after overwriting the already-present key `"b"`. -/
def cacheTwoABB : Option (TTLCache Nat) :=
  cacheTwoAB.bind (fun c => c.set "b" 3 none 0)

/-- A one-slot cache holding `"k" ↦ 5` set at time 0 with the default
ttl of 100. -/
def cacheAfterSet : TTLCache Nat :=
  ((TTLCache.init Nat 1 100).set "k" 5 none 0).getD (TTLCache.init Nat 1 100)

/-- The progress record of `dbNoQuizVideo` after `complete_video`. -/
def progDone : VideoProgress :=
  { enrollment_id := 100, video_id := 10
    watch_status := WatchStatus.WATCHED, seconds_watched := 5
    quiz_score := some 100, is_quiz_passed := true }

/-- `dbNoQuizVideo` after `complete_video` on video 10. -/
def dbNoQuizDone : Db := { dbNoQuizVideo with progresses := [progDone] }

/-! # Theorems -/

/-! ## Helper lemmas -/

/-- Folding `batchStep` adds the per-item counts onto the accumulator. -/
theorem batch_foldl_counts (items : List BatchItem) (acc : BatchCounts) :
    (items.foldl batchStep acc).processed
        = acc.processed + items.countP itemProcessed ∧
    (items.foldl batchStep acc).failed
        = acc.failed + items.countP itemFailed ∧
    (items.foldl batchStep acc).skipped
        = acc.skipped + items.countP itemSkipped := by
  induction items generalizing acc with
  | nil => simp
  | cons it rest ih =>
    obtain ⟨h1, h2, h3⟩ := ih (batchStep acc it)
    obtain ⟨a, r⟩ := it
    cases a <;> cases r <;>
      simp_all [batchStep, itemProcessed, itemFailed, itemSkipped,
        List.countP_cons] <;> omega

/-- Every batch item is counted by exactly one of the three counters. -/
theorem batch_item_partition (it : BatchItem) :
    (if itemProcessed it then 1 else 0) + (if itemFailed it then 1 else 0)
      + (if itemSkipped it then 1 else 0) = 1 := by
  obtain ⟨a, r⟩ := it
  cases a <;> cases r <;> simp [itemProcessed, itemFailed, itemSkipped]

/-! ## C5 — batch processor counts, failure isolation, empty batch -/

/-- C5: for every batch, `processed + failed + skipped` equals the batch
size; each item is counted independently by its own outcome (an
already-analyzed item is skipped, an item whose external call raises is
counted as failed without affecting any other item, a successful item is
counted as processed); the empty batch returns all-zero counts with the
nothing-to-do message. -/
theorem C5_batch_processor (items : List BatchItem) :
    ((process_course_content items).processed
        + (process_course_content items).failed
        + (process_course_content items).skipped = items.length) ∧
    (process_course_content items).processed = items.countP itemProcessed ∧
    (process_course_content items).failed = items.countP itemFailed ∧
    (process_course_content items).skipped = items.countP itemSkipped ∧
    process_course_content []
      = { processed := 0, failed := 0, skipped := 0
          message := some "No pending videos to process" } := by
  have hsum : ∀ l : List BatchItem,
      l.countP itemProcessed + l.countP itemFailed + l.countP itemSkipped
        = l.length := by
    intro l
    induction l with
    | nil => simp
    | cons it rest ih =>
      have := batch_item_partition it
      simp only [List.countP_cons, List.length_cons]
      omega
  unfold process_course_content
  cases items with
  | nil => simp
  | cons it rest =>
    obtain ⟨h1, h2, h3⟩ :=
      batch_foldl_counts (it :: rest)
        { processed := 0, failed := 0, skipped := 0, message := none }
    simp only [List.isEmpty_cons, if_neg, Bool.false_eq_true, not_false_iff,
      ite_false]
    refine ⟨?_, by simpa using h1, by simpa using h2, by simpa using h3, rfl⟩
    rw [h1, h2, h3]
    simpa using hsum (it :: rest)

/-! ## C4 — certificate issuance is idempotent -/

/-- C4: when a certificate already exists for (user, course), a further
`issue_certificate` call returns exactly that certificate and leaves the
whole store unchanged — no second record, no eligibility re-validation
(the result does not depend on any progress state), no other state
change. -/
theorem C4_certificate_idempotent (db : Db) (user : User)
    (playlist_id fresh_id : Nat) (now : ℚ) (cert : Certificate)
    (h : db.findCertificate user.id playlist_id = some cert) :
    issue_certificate db user playlist_id fresh_id now = Except.ok (db, cert) := by
  unfold issue_certificate
  rw [h]

/-- Witness for C4 at a concrete store that already holds certificate 42
for (user 7, course 1). -/
theorem C4_witness :
    dbWithCert.findCertificate userC.id 1
        = some { id := 42, user_id := 7, playlist_id := 1, issued_at := 0
                 pdf_url := some "/static/certificates/42.pdf" } ∧
      issue_certificate dbWithCert userC 1 99 5
        = Except.ok (dbWithCert,
            { id := 42, user_id := 7, playlist_id := 1, issued_at := 0
              pdf_url := some "/static/certificates/42.pdf" }) :=
  ⟨rfl, C4_certificate_idempotent dbWithCert userC 1 99 5 _ rfl⟩

/-! ## C8 — token bucket refill-then-consume -/

/-- An immediate `consume(1)` (no time elapsed) on a bucket whose token
count does not exceed its capacity. -/
theorem consume_at_now (cap : Nat) (rate t0 t : ℚ) (ht : t ≤ (cap : ℚ)) :
    TokenBucket.consume
        { capacity := cap, refill_rate := rate, tokens := t
          last_refill := t0 } t0 1
      = (if (1 : ℚ) ≤ t then
          (true, { capacity := cap, refill_rate := rate, tokens := t - 1
                   last_refill := t0 })
        else
          (false, { capacity := cap, refill_rate := rate, tokens := t
                    last_refill := t0 })) := by
  simp [TokenBucket.consume, TokenBucket.refill, sub_self, min_eq_right ht]

/-- Draining a bucket whose `tokens` field is the natural number `j`
(at most `capacity`) with immediate consumes: exactly `j` successes then
a failure. -/
theorem consumeSeq_drain (cap : Nat) (rate : ℚ) (t0 : ℚ) :
    ∀ j : Nat, j ≤ cap →
      TokenBucket.consumeSeq
          { capacity := cap, refill_rate := rate, tokens := ((j : Nat) : ℚ)
            last_refill := t0 } t0 (j + 1)
        = List.replicate j true ++ [false] := by
  intro j
  induction j with
  | zero =>
    intro _
    rw [TokenBucket.consumeSeq,
      consume_at_now cap rate t0 _ (by exact_mod_cast Nat.zero_le cap)]
    norm_num [TokenBucket.consumeSeq]
  | succ j ih =>
    intro hj
    have hle : ((j + 1 : Nat) : ℚ) ≤ (cap : ℚ) := by exact_mod_cast hj
    have h1 : (1 : ℚ) ≤ ((j + 1 : Nat) : ℚ) := by
      push_cast
      linarith [Nat.cast_nonneg (α := ℚ) j]
    rw [TokenBucket.consumeSeq, consume_at_now cap rate t0 _ hle, if_pos h1]
    have htok : ((j + 1 : Nat) : ℚ) - 1 = ((j : Nat) : ℚ) := by
      push_cast
      ring
    simp only [htok]
    rw [ih (Nat.le_of_succ_le hj)]
    simp [List.replicate_succ]

/-- C8: `consume` refills first (`tokens` becomes
`min(capacity, tokens + elapsed * refill_rate)`, `last_refill` becomes
`now`), then consumes — it succeeds and decrements by one exactly when
the refilled token count is at least 1, and a denied consume leaves the
refilled token count unchanged; a freshly created bucket allows exactly
`capacity` consecutive immediate requests and denies the next. -/
theorem C8_token_bucket (b : TokenBucket) (now : ℚ) (cap : Nat)
    (rate : ℚ) (t0 : ℚ) :
    ((b.refill now).tokens
        = min (b.capacity : ℚ) (b.tokens + (now - b.last_refill) * b.refill_rate) ∧
      (b.consume now 1).2.last_refill = now ∧
      ((b.consume now 1).1 = true ↔ 1 ≤ (b.refill now).tokens) ∧
      ((b.consume now 1).1 = true →
        (b.consume now 1).2.tokens = (b.refill now).tokens - 1) ∧
      ((b.consume now 1).1 = false →
        (b.consume now 1).2.tokens = (b.refill now).tokens)) ∧
    TokenBucket.consumeSeq (TokenBucket.create cap rate t0) t0 (cap + 1)
      = List.replicate cap true ++ [false] := by
  constructor
  · refine ⟨rfl, ?_, ?_, ?_, ?_⟩ <;>
      · simp only [TokenBucket.consume]
        split <;> simp_all [TokenBucket.refill]
  · exact consumeSeq_drain cap rate t0 cap (le_refl cap)

/-! ## C9 — `complete_video` -/

/-- Updating the progress rows keyed (enrollment, video) rewrites the row
`findProgress` returns, provided the update preserves the key fields. -/
theorem find?_update_progress (l : List VideoProgress) (eid vid : Nat)
    (f : VideoProgress → VideoProgress)
    (hf : ∀ p, (f p).enrollment_id = p.enrollment_id ∧ (f p).video_id = p.video_id) :
    (l.map (fun p =>
        if p.enrollment_id = eid ∧ p.video_id = vid then f p else p)).find?
        (fun p => p.enrollment_id = eid ∧ p.video_id = vid)
      = (l.find? (fun p => p.enrollment_id = eid ∧ p.video_id = vid)).map f := by
  induction l with
  | nil => rfl
  | cons p rest ih =>
    rw [List.map_cons]
    by_cases hp : p.enrollment_id = eid ∧ p.video_id = vid
    · have hfp : (f p).enrollment_id = eid ∧ (f p).video_id = vid := by
        rw [(hf p).1, (hf p).2]
        exact hp
      rw [if_pos hp]
      simp only [List.find?_cons, decide_eq_true hfp, decide_eq_true hp]
      rfl
    · rw [if_neg hp]
      simp only [List.find?_cons, decide_eq_false hp]
      exact ih

/-- `Db.findProgress` after `Db.updateProgress` at the same key. -/
theorem findProgress_updateProgress (db : Db) (eid vid : Nat)
    (f : VideoProgress → VideoProgress)
    (hf : ∀ p, (f p).enrollment_id = p.enrollment_id ∧ (f p).video_id = p.video_id) :
    (db.updateProgress eid vid f).findProgress eid vid
      = (db.findProgress eid vid).map f :=
  find?_update_progress db.progresses eid vid f hf

/-- C9: on an existing (enrollment, video) progress record,
`complete_video` sets `watch_status` to WATCHED from any prior status;
exactly when the video has no quiz it additionally sets
`is_quiz_passed = true` and `quiz_score = 100` (with a quiz, both fields
are left as they were); and it never touches the enrollments (so no
course-level completion derivation is triggered). -/
theorem C9_complete_video (db db' : Db) (user : User) (video_id : Nat)
    (video : Video) (e : Enrollment) (p0 prog : VideoProgress)
    (hv : db.findVideo video_id = some video)
    (he : db.findEnrollment user.id video.playlist_id = some e)
    (hp : db.findProgress e.id video_id = some p0)
    (h : complete_video db user video_id = Except.ok (db', prog)) :
    prog.watch_status = WatchStatus.WATCHED ∧
    (video.has_quiz = false →
      prog.is_quiz_passed = true ∧ prog.quiz_score = some 100) ∧
    (video.has_quiz = true →
      prog.is_quiz_passed = p0.is_quiz_passed ∧
      prog.quiz_score = p0.quiz_score) ∧
    db'.enrollments = db.enrollments ∧
    db'.playlists = db.playlists ∧
    db'.videos = db.videos ∧
    db'.certificates = db.certificates := by
  unfold complete_video at h
  rw [hv] at h
  dsimp only at h
  rw [he] at h
  dsimp only at h
  rw [hp] at h
  dsimp only at h
  rw [findProgress_updateProgress db e.id video_id _
    (by intro p; split <;> simp)] at h
  rw [hp] at h
  dsimp only [Option.map] at h
  simp only [Except.ok.injEq, Prod.mk.injEq] at h
  obtain ⟨hdb, hprog⟩ := h
  subst hdb
  subst hprog
  by_cases hq : video.has_quiz = true
  · simp [hq, Db.updateProgress]
  · simp [hq, Db.updateProgress]

/-- Witness for C9: completing the quiz-less video 10 from IN_PROGRESS. -/
theorem C9_witness :
    progDone.watch_status = WatchStatus.WATCHED ∧
    (({ id := 10, playlist_id := 1, title := "V10", has_quiz := false
        quiz_data := none } : Video).has_quiz = false →
      progDone.is_quiz_passed = true ∧ progDone.quiz_score = some 100) ∧
    (({ id := 10, playlist_id := 1, title := "V10", has_quiz := false
        quiz_data := none } : Video).has_quiz = true →
      progDone.is_quiz_passed
          = ({ enrollment_id := 100, video_id := 10
               watch_status := WatchStatus.IN_PROGRESS, seconds_watched := 5
               quiz_score := none, is_quiz_passed := false } : VideoProgress).is_quiz_passed ∧
        progDone.quiz_score
          = ({ enrollment_id := 100, video_id := 10
               watch_status := WatchStatus.IN_PROGRESS, seconds_watched := 5
               quiz_score := none, is_quiz_passed := false } : VideoProgress).quiz_score) ∧
    dbNoQuizDone.enrollments = dbNoQuizVideo.enrollments ∧
    dbNoQuizDone.playlists = dbNoQuizVideo.playlists ∧
    dbNoQuizDone.videos = dbNoQuizVideo.videos ∧
    dbNoQuizDone.certificates = dbNoQuizVideo.certificates :=
  C9_complete_video dbNoQuizVideo dbNoQuizDone userC 10
    { id := 10, playlist_id := 1, title := "V10", has_quiz := false
      quiz_data := none }
    { id := 100, user_id := 7, playlist_id := 1, is_completed := false
      certificate_url := none }
    { enrollment_id := 100, video_id := 10
      watch_status := WatchStatus.IN_PROGRESS, seconds_watched := 5
      quiz_score := none, is_quiz_passed := false }
    progDone rfl rfl rfl rfl

/-! ## Cache helper lemmas -/

/-- After erasing a key, it cannot be looked up. -/
theorem lookup_erase_self {α : Type} (l : CacheDict α) (k : String) :
    CacheDict.lookup (CacheDict.erase l k) k = none := by
  induction l with
  | nil => rfl
  | cons p rest ih =>
    unfold CacheDict.erase at ih ⊢
    rw [List.filter_cons]
    by_cases hp : p.1 = k
    · rw [if_neg (by simp [hp])]
      exact ih
    · rw [if_pos (by simp [hp])]
      unfold CacheDict.lookup at ih ⊢
      rw [List.find?_cons_of_neg _ (by simpa using hp)]
      exact ih

/-- Looking up the key just appended behind its own erasure. -/
theorem lookup_erase_append_self {α : Type} (l : CacheDict α) (k : String)
    (e : CacheEntry α) :
    CacheDict.lookup (CacheDict.erase l k ++ [(k, e)]) k = some e := by
  induction l with
  | nil =>
    show CacheDict.lookup [(k, e)] k = some e
    unfold CacheDict.lookup
    rw [List.find?_cons_of_pos _ (by simp)]
    rfl
  | cons p rest ih =>
    unfold CacheDict.erase at ih ⊢
    rw [List.filter_cons]
    by_cases hp : p.1 = k
    · rw [if_neg (by simp [hp])]
      exact ih
    · rw [if_pos (by simp [hp]), List.cons_append]
      unfold CacheDict.lookup at ih ⊢
      rw [List.find?_cons_of_neg _ (by simpa using hp)]
      exact ih

/-- Closed form of the eviction loop: with a positive capacity it always
succeeds and drops exactly the oldest entries needed to go strictly
under capacity (none when already strictly under). -/
theorem evictLoop_eq_drop {α : Type} (m : Nat) (hm : 1 ≤ m) :
    ∀ l : CacheDict α,
      TTLCache.evictLoop m l = some (l.drop (l.length + 1 - m)) := by
  intro l
  induction l with
  | nil =>
    rw [TTLCache.evictLoop, if_neg (by omega)]
    simp
  | cons x rest ih =>
    rw [TTLCache.evictLoop]
    by_cases hlen : m ≤ (x :: rest).length
    · rw [if_pos hlen, ih]
      have harith : (x :: rest).length + 1 - m = (rest.length + 1 - m) + 1 := by
        simp only [List.length_cons] at hlen ⊢
        omega
      rw [harith, List.drop_succ_cons]
    · rw [if_neg hlen]
      have harith : (x :: rest).length + 1 - m = 0 := by
        simp only [List.length_cons] at hlen ⊢
        omega
      rw [harith, List.drop_zero]

/-- Erasing never lengthens a dict. -/
theorem erase_length_le {α : Type} (l : CacheDict α) (k : String) :
    (CacheDict.erase l k).length ≤ l.length :=
  List.length_filter_le _ l

/-- Erasing a present key strictly shortens the dict. -/
theorem erase_length_lt {α : Type} (l : CacheDict α) (k : String)
    (e : CacheEntry α) (h : CacheDict.lookup l k = some e) :
    (CacheDict.erase l k).length < l.length := by
  induction l with
  | nil => simp [CacheDict.lookup] at h
  | cons p rest ih =>
    unfold CacheDict.erase
    rw [List.filter_cons]
    by_cases hp : p.1 = k
    · rw [if_neg (by simp [hp])]
      have hle : (CacheDict.erase rest k).length ≤ rest.length :=
        erase_length_le rest k
      unfold CacheDict.erase at hle
      simp only [List.length_cons]
      omega
    · rw [if_pos (by simp [hp])]
      unfold CacheDict.lookup at h
      rw [List.find?_cons_of_neg _ (by simpa using hp)] at h
      have hlt := ih h
      unfold CacheDict.erase at hlt
      simp only [List.length_cons]
      omega

/-- `move_to_end` never lengthens a dict. -/
theorem moveToEnd_length_le {α : Type} (l : CacheDict α) (k : String) :
    (CacheDict.moveToEnd l k).length ≤ l.length := by
  unfold CacheDict.moveToEnd
  cases h : CacheDict.lookup l k with
  | none => exact le_refl _
  | some e =>
    have := erase_length_lt l k e h
    simp only [List.length_append, List.length_cons, List.length_nil]
    omega

/-! ## C6 — TTL semantics of get after set -/

/-- C6: after a successful `set`, the key maps to the freshly written
entry; a `get` at any time not past the expiry instant returns the set
value and counts a hit; a `get` strictly after the expiry instant
deletes the entry, returns absent, and counts a miss. -/
theorem C6_ttl_get_after_set {α : Type} (c c' : TTLCache α) (k : String)
    (v : α) (ttl : Option ℚ) (t_set t_get : ℚ)
    (hset : c.set k v ttl t_set = some c') :
    c'.cache.lookup k = some { value := v, expires_at := t_set + c.resolveTtl ttl } ∧
    (t_get ≤ t_set + c.resolveTtl ttl →
      (c'.get k t_get).1 = some v ∧
      (c'.get k t_get).2.hits = c'.hits + 1) ∧
    (t_set + c.resolveTtl ttl < t_get →
      (c'.get k t_get).1 = none ∧
      ((c'.get k t_get).2.cache.lookup k = none) ∧
      (c'.get k t_get).2.misses = c'.misses + 1) := by
  unfold TTLCache.set at hset
  cases hev : TTLCache.evictLoop c.max_size c.cache with
  | none => rw [hev] at hset; exact absurd hset (by simp)
  | some l =>
    rw [hev] at hset
    simp only [Option.some.injEq] at hset
    subst hset
    have hlook := lookup_erase_append_self l k
      ({ value := v, expires_at := t_set + c.resolveTtl ttl } : CacheEntry α)
    refine ⟨hlook, ?_, ?_⟩
    · intro ht
      have hexp : CacheEntry.is_expired
          { value := v, expires_at := t_set + c.resolveTtl ttl } t_get = false := by
        simp [CacheEntry.is_expired, not_lt.mpr ht]
      unfold TTLCache.get
      rw [hlook]
      simp [hexp]
    · intro ht
      have hexp : CacheEntry.is_expired
          { value := v, expires_at := t_set + c.resolveTtl ttl } t_get = true := by
        simp [CacheEntry.is_expired, ht]
      unfold TTLCache.get
      rw [hlook]
      simp [hexp, lookup_erase_self]

/-- Witness for C6: a one-slot cache, `set "k" 5` at time 0 (default ttl
100), read back at times 50 and 101. -/
theorem C6_witness :
    (cacheAfterSet.get "k" 50).1 = some 5 ∧
    (cacheAfterSet.get "k" 101).1 = none := by
  have h1 := C6_ttl_get_after_set (TTLCache.init Nat 1 100) cacheAfterSet
    "k" 5 none 0 50 rfl
  have h2 := C6_ttl_get_after_set (TTLCache.init Nat 1 100) cacheAfterSet
    "k" 5 none 0 101 rfl
  refine ⟨(h1.2.1 ?_).1, (h2.2.2 ?_).1⟩ <;>
    norm_num [TTLCache.resolveTtl, TTLCache.init]

/-! ## C7 — LRU eviction discipline of `set` -/

/-- Counterexample to C7 as stated: on a two-slot cache holding `"a"`
(least recently used) and `"b"`, overwriting the already-present key
`"b"` does not grow the cache — the insertion would not exceed
`max_size` — yet the eviction loop still runs (its guard is
`len >= max_size`, checked before insertion and regardless of key
presence) and evicts `"a"`.  The claim asserts such a `set` evicts
nothing. -/
theorem C7_counterexample :
    cacheTwoAB.map
        (fun c => ((CacheDict.lookup c.cache "a").isSome,
          (CacheDict.lookup c.cache "b").isSome,
          decide (c.cache.length = c.max_size))) = some (true, true, true) ∧
    cacheTwoABB.map
        (fun c => ((CacheDict.lookup c.cache "a").isSome,
          (CacheDict.lookup c.cache "b").isSome)) = some (false, true) := by
  decide

/-- C7 amended: `set` runs the eviction loop exactly when the cache size
before insertion is at least `max_size` — even when the key is already
present, so an overwrite at capacity also evicts — and the loop removes
entries from the front of the access order (the least recently used
side) until strictly under capacity; a `set` on a cache strictly under
capacity evicts nothing; every successful `get` moves the hit key to the
most-recently-used end. -/
theorem C7_amended {α : Type} (c : TTLCache α) (k : String) (v : α)
    (ttl : Option ℚ) (now : ℚ) (hm : 1 ≤ c.max_size) :
    (c.set k v ttl now = some { c with
        cache := CacheDict.erase
            (c.cache.drop (c.cache.length + 1 - c.max_size)) k
          ++ [(k, { value := v, expires_at := now + c.resolveTtl ttl })] }) ∧
    (c.cache.length < c.max_size →
      c.cache.drop (c.cache.length + 1 - c.max_size) = c.cache) ∧
    (∀ e, CacheDict.lookup c.cache k = some e → e.is_expired now = false →
      (c.get k now).1 = some e.value ∧
      (c.get k now).2.cache = CacheDict.erase c.cache k ++ [(k, e)]) := by
  refine ⟨?_, ?_, ?_⟩
  · unfold TTLCache.set
    rw [evictLoop_eq_drop c.max_size hm c.cache]
  · intro hlt
    have : c.cache.length + 1 - c.max_size = 0 := by omega
    rw [this, List.drop_zero]
  · intro e hlook hexp
    unfold TTLCache.get
    rw [hlook]
    simp [hexp, CacheDict.moveToEnd, hlook]

/-- Witness for C7 amended: a one-slot cache at capacity; a `set` of a
fresh key evicts the resident entry and installs the new one. -/
theorem C7_witness :
    cacheAfterSet.set "x" 9 none 1
      = some { cacheAfterSet with
          cache := CacheDict.erase
              (cacheAfterSet.cache.drop
                (cacheAfterSet.cache.length + 1 - cacheAfterSet.max_size)) "x"
            ++ [("x", { value := 9
                        expires_at := 1 + cacheAfterSet.resolveTtl none })] } :=
  (C7_amended cacheAfterSet "x" 9 none 1 (by decide)).1

/-! ## C10 — size bound invariant and the `max_size = 0` failure -/

/-- The post-state of `get` never has more entries than the pre-state. -/
theorem get_length_le {α : Type} (c : TTLCache α) (k : String) (now : ℚ) :
    (c.get k now).2.cache.length ≤ c.cache.length := by
  unfold TTLCache.get
  cases h : CacheDict.lookup c.cache k with
  | none => exact le_refl _
  | some e =>
    by_cases hexp : e.is_expired now = true
    · simp only [hexp, if_true]
      exact erase_length_le c.cache k
    · simp only [Bool.not_eq_true] at hexp
      simp only [hexp, Bool.false_eq_true, if_false]
      exact moveToEnd_length_le c.cache k

/-- `get` does not change the cache configuration. -/
theorem get_preserves_config {α : Type} (c : TTLCache α) (k : String)
    (now : ℚ) : (c.get k now).2.max_size = c.max_size := by
  unfold TTLCache.get
  cases h : CacheDict.lookup c.cache k with
  | none => rfl
  | some e =>
    by_cases hexp : e.is_expired now = true
    · simp only [hexp, if_true]
    · simp only [Bool.not_eq_true] at hexp
      simp only [hexp, Bool.false_eq_true, if_false]

/-- The post-state of `delete` in closed form. -/
theorem delete_snd {α : Type} (c : TTLCache α) (k : String) :
    (c.delete k).2
      = if (CacheDict.lookup c.cache k).isSome then
          { c with cache := CacheDict.erase c.cache k }
        else c := by
  unfold TTLCache.delete
  split
  · rfl
  · rfl

/-- One operation keeps the store within `max_size` (for positive
`max_size`) and never changes `max_size`. -/
theorem applyOp_bound {α : Type} (c : TTLCache α) (op : CacheOp α)
    (hc : c.cache.length ≤ c.max_size) (hm : 1 ≤ c.max_size) :
    ∃ c', c.applyOp op = some c' ∧ c'.cache.length ≤ c'.max_size ∧
      c'.max_size = c.max_size := by
  cases op with
  | get k now =>
    refine ⟨(c.get k now).2, rfl, ?_, get_preserves_config c k now⟩
    rw [get_preserves_config c k now]
    exact le_trans (get_length_le c k now) hc
  | set k v ttl now =>
    refine ⟨{ c with
        cache := CacheDict.erase
            (c.cache.drop (c.cache.length + 1 - c.max_size)) k
          ++ [(k, { value := v, expires_at := now + c.resolveTtl ttl })] },
      ?_, ?_, rfl⟩
    · show c.set k v ttl now = _
      unfold TTLCache.set
      rw [evictLoop_eq_drop c.max_size hm c.cache]
    · have hdrop : (c.cache.drop (c.cache.length + 1 - c.max_size)).length
          ≤ c.max_size - 1 := by
        rw [List.length_drop]
        omega
      have herase := erase_length_le
        (c.cache.drop (c.cache.length + 1 - c.max_size)) k
      simp only [List.length_append, List.length_cons, List.length_nil]
      omega
  | delete k =>
    refine ⟨(c.delete k).2, rfl, ?_, ?_⟩ <;> rw [delete_snd]
    · split
      · exact le_trans (erase_length_le c.cache k) hc
      · exact hc
    · split
      · rfl
      · rfl
  | clear =>
    refine ⟨c.clear, rfl, ?_, rfl⟩
    show ([] : CacheDict α).length ≤ c.max_size
    simp

/-- Any operation sequence from a within-bound cache stays within
bound. -/
theorem runOps_bound {α : Type} (ops : List (CacheOp α)) :
    ∀ c : TTLCache α, c.cache.length ≤ c.max_size → 1 ≤ c.max_size →
      ∃ c', c.runOps ops = some c' ∧ c'.cache.length ≤ c'.max_size ∧
        c'.max_size = c.max_size := by
  induction ops with
  | nil => exact fun c hc _ => ⟨c, rfl, hc, rfl⟩
  | cons op rest ih =>
    intro c hc hm
    obtain ⟨c1, h1, hb1, hsz1⟩ := applyOp_bound c op hc hm
    obtain ⟨c2, h2, hb2, hsz2⟩ := ih c1 hb1 (hsz1 ▸ hm)
    refine ⟨c2, ?_, hb2, by omega⟩
    unfold TTLCache.runOps
    rw [h1]
    exact h2

/-- C10: for a cache constructed with `max_size ≥ 1`, the stored entry
count never exceeds `max_size` under any sequence of get/set/delete/clear
(each `set` evicts oldest-ordered entries before inserting whenever the
cache is at or above capacity); the bound needs `max_size ≥ 1`: `set` on
a cache constructed with `max_size = 0` is not total (the eviction loop
raises `KeyError` on the empty dict, modelled as `none`). -/
theorem C10_size_invariant (m : Nat) (hm : 1 ≤ m) (ttl : ℚ)
    (ops : List (CacheOp Nat)) :
    (∃ c', TTLCache.runOps (TTLCache.init Nat m ttl) ops = some c' ∧
      c'.cache.length ≤ m) ∧
    (TTLCache.init Nat 0 ttl).set "k" 0 none 0 = none := by
  constructor
  · obtain ⟨c', h, hb, hsz⟩ :=
      runOps_bound ops (TTLCache.init Nat m ttl) (by simp [TTLCache.init]) hm
    exact ⟨c', h, by simp [TTLCache.init] at hsz; omega⟩
  · rfl

/-- Witness for C10: a two-slot cache with three sets and a get. -/
theorem C10_witness :
    (∃ c', TTLCache.runOps (TTLCache.init Nat 2 10)
        [CacheOp.set "a" 1 none 0, CacheOp.set "b" 2 none 0,
         CacheOp.set "c" 3 none 0, CacheOp.get "b" 1] = some c' ∧
      c'.cache.length ≤ 2) ∧
    (TTLCache.init Nat 0 10).set "k" 0 none 0 = none :=
  C10_size_invariant 2 (by decide) 10
    [CacheOp.set "a" 1 none 0, CacheOp.set "b" 2 none 0,
     CacheOp.set "c" 3 none 0, CacheOp.get "b" 1]

/-! ## C3 — certificate eligibility -/

/-- Updating the enrollment rows keyed by id rewrites the row
`findEnrollment` returns, provided the update preserves user and
playlist. -/
theorem find?_update_enrollment (l : List Enrollment) (uid pid eid : Nat)
    (f : Enrollment → Enrollment)
    (hf : ∀ en, (f en).user_id = en.user_id ∧ (f en).playlist_id = en.playlist_id) :
    (l.map (fun en => if en.id = eid then f en else en)).find?
        (fun en => en.user_id = uid ∧ en.playlist_id = pid)
      = (l.find? (fun en => en.user_id = uid ∧ en.playlist_id = pid)).map
          (fun en => if en.id = eid then f en else en) := by
  induction l with
  | nil => rfl
  | cons en rest ih =>
    rw [List.map_cons]
    by_cases hen : en.user_id = uid ∧ en.playlist_id = pid
    · have hen' : (if en.id = eid then f en else en).user_id = uid ∧
          (if en.id = eid then f en else en).playlist_id = pid := by
        split
        · rw [(hf en).1, (hf en).2]
          exact hen
        · exact hen
      simp only [List.find?_cons, decide_eq_true hen', decide_eq_true hen]
      rfl
    · have hen' : ¬((if en.id = eid then f en else en).user_id = uid ∧
          (if en.id = eid then f en else en).playlist_id = pid) := by
        split
        · rw [(hf en).1, (hf en).2]
          exact hen
        · exact hen
      simp only [List.find?_cons, decide_eq_false hen', decide_eq_false hen]
      exact ih

/-- `Db.findEnrollment` after `Db.updateEnrollment`. -/
theorem findEnrollment_updateEnrollment (db : Db) (uid pid eid : Nat)
    (f : Enrollment → Enrollment)
    (hf : ∀ en, (f en).user_id = en.user_id ∧ (f en).playlist_id = en.playlist_id) :
    (db.updateEnrollment eid f).findEnrollment uid pid
      = (db.findEnrollment uid pid).map
          (fun en => if en.id = eid then f en else en) :=
  find?_update_enrollment db.enrollments uid pid eid f hf


/-- A video contributes no missing-requirement description exactly when
it meets the spec's certificate requirement. -/
theorem videoMissing_nil_iff (records : List VideoProgress) (v : Video) :
    videoMissing records v = [] ↔ videoRequirementMet records v := by
  unfold videoMissing videoRequirementMet
  cases hg : progressMapGet records v.id with
  | none => simp
  | some vp =>
    by_cases hw : vp.watch_status = WatchStatus.WATCHED <;>
      by_cases hq : vp.is_quiz_passed = true <;>
        simp [hw, hq]

/-- A video's description count is its number of failed checks (one for
a missing record). -/
theorem videoMissing_length (records : List VideoProgress) (v : Video) :
    (videoMissing records v).length = unmetCount records v := by
  unfold videoMissing unmetCount
  cases progressMapGet records v.id with
  | none => rfl
  | some vp =>
    by_cases hw : vp.watch_status = WatchStatus.WATCHED <;>
      by_cases hq : vp.is_quiz_passed = true <;>
        simp [hw, hq]

/-- The eligibility report is empty exactly when every video of the list
meets the requirement. -/
theorem eligibilityMissing_nil_iff (videos : List Video)
    (records : List VideoProgress) :
    eligibilityMissing videos records = []
      ↔ ∀ v ∈ videos, videoRequirementMet records v := by
  unfold eligibilityMissing
  induction videos with
  | nil => simp
  | cons v rest ih =>
    rw [List.map_cons, List.flatten_cons, List.append_eq_nil,
      videoMissing_nil_iff]
    constructor
    · rintro ⟨h1, h2⟩ w hw
      rcases List.mem_cons.mp hw with rfl | hw'
      · exact h1
      · exact ih.mp h2 w hw'
    · intro hall
      exact ⟨hall v (List.mem_cons_self v rest),
        ih.mpr (fun w hw => hall w (List.mem_cons_of_mem v hw))⟩

/-- The eligibility report carries one description per unmet condition:
its length is the sum over the course's videos of each video's failed
check count. -/
theorem eligibilityMissing_length (videos : List Video)
    (records : List VideoProgress) :
    (eligibilityMissing videos records).length
      = ((videos.map (unmetCount records)).sum) := by
  unfold eligibilityMissing
  induction videos with
  | nil => rfl
  | cons v rest ih =>
    rw [List.map_cons, List.flatten_cons, List.length_append, ih,
      List.map_cons, List.sum_cons, videoMissing_length]

/-- C3 (amended): for an enrolled user, a course with at least one video
and no existing certificate, issuance fails with the structured client
error — one description per unmet condition — exactly when some video of
the course lacks a progress record, is not WATCHED, or has its quiz not
passed; when every video meets all three conditions a certificate is
created (appended to the store, keyed to the user and course) and the
enrollment is marked completed.  (Separately, a non-enrolled user or an
empty course also receives a one-description client error.) -/
theorem C3_certificate_eligibility (db : Db) (user : User)
    (playlist_id fresh_id : Nat) (now : ℚ) (e : Enrollment) (pl : Playlist)
    (hcert : db.findCertificate user.id playlist_id = none)
    (he : db.findEnrollment user.id playlist_id = some e)
    (hpl : db.findPlaylist playlist_id = some pl)
    (hvid : db.playlistVideos playlist_id ≠ []) :
    ((∃ v ∈ db.playlistVideos playlist_id,
        ¬ videoRequirementMet (db.enrollmentProgresses e.id) v) →
      issue_certificate db user playlist_id fresh_id now
        = Except.error (ApiError.preconditionFailed
            "Not eligible for certificate yet"
            (eligibilityMissing (db.playlistVideos playlist_id)
              (db.enrollmentProgresses e.id))) ∧
      (eligibilityMissing (db.playlistVideos playlist_id)
          (db.enrollmentProgresses e.id)).length
        = ((db.playlistVideos playlist_id).map
            (unmetCount (db.enrollmentProgresses e.id))).sum ∧
      eligibilityMissing (db.playlistVideos playlist_id)
          (db.enrollmentProgresses e.id) ≠ []) ∧
    ((∀ v ∈ db.playlistVideos playlist_id,
        videoRequirementMet (db.enrollmentProgresses e.id) v) →
      ∃ db2 cert, issue_certificate db user playlist_id fresh_id now
          = Except.ok (db2, cert) ∧
        cert.id = fresh_id ∧ cert.user_id = user.id ∧
        cert.playlist_id = playlist_id ∧
        db2.certificates = db.certificates ++ [cert] ∧
        ∃ en', db2.findEnrollment user.id playlist_id = some en' ∧
          en'.is_completed = true) := by
  have hce : check_eligibility db user.id playlist_id
      = (if (eligibilityMissing (db.playlistVideos playlist_id)
              (db.enrollmentProgresses e.id)).isEmpty
         then (true, [])
         else (false, eligibilityMissing (db.playlistVideos playlist_id)
                (db.enrollmentProgresses e.id))) := by
    unfold check_eligibility
    rw [he]
    dsimp only
    rw [if_neg (by simpa [List.isEmpty_iff] using hvid)]
  constructor
  · intro hex
    have hne : eligibilityMissing (db.playlistVideos playlist_id)
        (db.enrollmentProgresses e.id) ≠ [] := by
      intro hnil
      obtain ⟨v, hv, hunmet⟩ := hex
      exact hunmet ((eligibilityMissing_nil_iff _ _).mp hnil v hv)
    refine ⟨?_, eligibilityMissing_length _ _, hne⟩
    have helig : check_eligibility db user.id playlist_id
        = (false, eligibilityMissing (db.playlistVideos playlist_id)
            (db.enrollmentProgresses e.id)) := by
      rw [hce, if_neg (by simpa [List.isEmpty_iff] using hne)]
    unfold issue_certificate
    rw [hcert]
    dsimp only
    rw [helig]
    dsimp only
    rw [if_pos (by simp)]
  · intro hall
    have hnil : eligibilityMissing (db.playlistVideos playlist_id)
        (db.enrollmentProgresses e.id) = [] :=
      (eligibilityMissing_nil_iff _ _).mpr hall
    have helig : check_eligibility db user.id playlist_id = (true, []) := by
      rw [hce, hnil]
      rfl
    unfold issue_certificate
    rw [hcert]
    dsimp only
    rw [helig]
    dsimp only
    rw [if_neg (by simp)]
    rw [hpl]
    dsimp only
    rw [he]
    dsimp only
    refine ⟨_, _, rfl, rfl, rfl, rfl, rfl, ?_⟩
    have hd1 : Db.findEnrollment
        { db with certificates := db.certificates ++
            [{ id := fresh_id, user_id := user.id
               playlist_id := playlist_id, issued_at := now
               pdf_url := some (generate_certificate_pdf
                 { id := fresh_id, user_id := user.id
                   playlist_id := playlist_id, issued_at := now
                   pdf_url := none }) }] } user.id playlist_id
        = some e := he
    rw [findEnrollment_updateEnrollment _ user.id playlist_id e.id _
      (by intro en; exact ⟨rfl, rfl⟩), hd1]
    refine ⟨_, rfl, ?_⟩
    simp

/-- Counterexample to C3 as stated: user 7 is enrolled in course 1,
which has no videos and no certificate; no video of the course violates
any per-video condition (there are none), so the claim requires a
certificate to be created — but the code raises the structured client
error "Course has no videos". -/
theorem C3_counterexample :
    (dbEmptyCourse.findCertificate 7 1 = none ∧
     dbEmptyCourse.findEnrollment 7 1 = some enrollC ∧
     dbEmptyCourse.playlistVideos 1 = []) ∧
    issue_certificate dbEmptyCourse userC 1 99 0
      = Except.error (ApiError.preconditionFailed
          "Not eligible for certificate yet" ["Course has no videos"]) :=
  ⟨⟨rfl, rfl, rfl⟩, rfl⟩

/-- Witness for C3 (amended): course 1 has one video whose progress is
IN_PROGRESS with the quiz not passed; issuance fails with the structured
report (not watched, quiz not passed — two descriptions). -/
theorem C3_witness :
    issue_certificate dbNoQuizVideo userC 1 99 0
      = Except.error (ApiError.preconditionFailed
          "Not eligible for certificate yet"
          (eligibilityMissing (dbNoQuizVideo.playlistVideos 1)
            (dbNoQuizVideo.enrollmentProgresses 100))) ∧
    (eligibilityMissing (dbNoQuizVideo.playlistVideos 1)
        (dbNoQuizVideo.enrollmentProgresses 100)).length
      = ((dbNoQuizVideo.playlistVideos 1).map
          (unmetCount (dbNoQuizVideo.enrollmentProgresses 100))).sum ∧
    eligibilityMissing (dbNoQuizVideo.playlistVideos 1)
        (dbNoQuizVideo.enrollmentProgresses 100) ≠ [] := by
  have h := C3_certificate_eligibility dbNoQuizVideo userC 1 99 0 enrollC
    { id := 1, title := "Course" } rfl rfl rfl (by decide)
  refine h.1 ⟨videoNQ, by decide, ?_⟩
  intro hmet
  exact absurd ((videoMissing_nil_iff _ _).mpr hmet) (by decide)

/-! ## C1 — quiz grading -/

/-- The code's enumerate-based grading loop computes the spec's
index-recursive count. -/
theorem countP_enumFrom_grade (answers : List (String × String)) :
    ∀ (qs : List Question) (n : Nat),
      (List.enumFrom n qs).countP
        (fun p => normalizeAnswer (answersGet answers (toString p.1))
          == normalizeAnswer p.2.answer)
      = specCorrectCount answers n qs
  | [], _ => rfl
  | q :: rest, n => by
    rw [List.enumFrom_cons, List.countP_cons, specCorrectCount,
      countP_enumFrom_grade answers rest (n + 1)]
    by_cases hcond : normalizeAnswer (answersGet answers (toString n))
        = normalizeAnswer q.answer
    · simp [hcond, Nat.add_comm]
    · simp [hcond]

/-- `gradeCount` refines the spec's per-index grading description. -/
theorem gradeCount_eq_spec (questions : List Question)
    (answers : List (String × String)) :
    gradeCount questions answers = specCorrectCount answers 0 questions := by
  unfold gradeCount
  rw [show questions.enum = List.enumFrom 0 questions from rfl]
  exact countP_enumFrom_grade answers questions 0

/-- A record appended behind a list in which the key was not found is the
one `find?` returns. -/
theorem find?_append_singleton {β : Type} (p : β → Bool) (l : List β) (x : β)
    (hl : l.find? p = none) (hx : p x = true) :
    (l ++ [x]).find? p = some x := by
  rw [List.find?_append, hl]
  simp [List.find?_cons, hx]

/-- Completion derivation only touches enrollments: the progress rows
are unchanged. -/
theorem completion_preserves_progresses (db : Db) (e : Enrollment)
    (pid : Nat) :
    (check_and_update_enrollment_completion db e pid).1.progresses
      = db.progresses := by
  unfold check_and_update_enrollment_completion
  cases db.findPlaylist pid with
  | none => rfl
  | some pl =>
    dsimp only
    split
    · rfl
    · split
      · rfl
      · rfl

/-- `findProgress` is unaffected by completion derivation. -/
theorem findProgress_completion (db : Db) (e2 : Enrollment)
    (pid eid vid : Nat) :
    ((check_and_update_enrollment_completion db e2 pid).1).findProgress eid vid
      = db.findProgress eid vid := by
  unfold Db.findProgress
  rw [completion_preserves_progresses]

/-- C1 (amended): `submit_quiz` grades per stringified 0-based index with
case-insensitive, whitespace-trimmed equality, treating a missing key as
the submission of the empty string; the stored score is
`floor(correct/total * 100)` and the pass flag is `score ≥ 75`. -/
theorem C1_quiz_grading (db : Db) (user : User) (video_id : Nat)
    (answers : List (String × String)) (db' : Db) (prog : VideoProgress)
    (res : QuizResult) (video : Video)
    (hv : db.findVideo video_id = some video)
    (h : submit_quiz db user video_id answers = Except.ok (db', prog, res)) :
    res.correct_count = specCorrectCount answers 0 (video.quiz_data.getD []) ∧
    res.total_questions = (video.quiz_data.getD []).length ∧
    0 < (video.quiz_data.getD []).length ∧
    res.score = res.correct_count * 100 / (video.quiz_data.getD []).length ∧
    prog.quiz_score = some res.score ∧
    prog.is_quiz_passed = res.passed ∧
    (res.passed = true ↔ 75 ≤ res.score) := by
  unfold submit_quiz at h
  rw [hv] at h
  dsimp only at h
  by_cases hbq : ¬video.has_quiz = true ∨ video.quiz_data = none
  · rw [if_pos hbq] at h
    simp at h
  rw [if_neg hbq] at h
  cases he : db.findEnrollment user.id video.playlist_id with
  | none =>
    rw [he] at h
    simp at h
  | some e =>
    rw [he] at h
    dsimp only at h
    by_cases hzero : (video.quiz_data.getD []).length = 0
    · rw [if_pos hzero] at h
      simp at h
    have hpos : 0 < (video.quiz_data.getD []).length := Nat.pos_of_ne_zero hzero
    cases hp0 : db.findProgress e.id video_id with
    | some p0 =>
      rw [hp0] at h
      dsimp only at h
      rw [if_neg hzero] at h
      split at h
      · simp at h
      · rename_i progress heq
        rw [Except.ok.injEq, Prod.mk.injEq, Prod.mk.injEq] at h
        obtain ⟨-, hprog, hres⟩ := h
        split at heq <;>
          [rw [findProgress_completion,
             findProgress_updateProgress db e.id video_id _
               (by intro p; exact ⟨rfl, rfl⟩), hp0] at heq;
           rw [findProgress_updateProgress db e.id video_id _
               (by intro p; exact ⟨rfl, rfl⟩), hp0] at heq] <;>
        · rw [Option.map_some', Option.some.injEq] at heq
          subst heq
          subst hprog
          subst hres
          refine ⟨gradeCount_eq_spec _ _, rfl, hpos, rfl, rfl, rfl, ?_⟩
          simp
    | none =>
      rw [hp0] at h
      dsimp only at h
      rw [if_neg hzero] at h
      have hfind1 :
          (Db.findProgress { db with progresses := db.progresses ++
              [({ enrollment_id := e.id, video_id := video_id
                  watch_status := WatchStatus.IN_PROGRESS
                  seconds_watched := 0, quiz_score := none
                  is_quiz_passed := false } : VideoProgress)] } e.id video_id)
            = some { enrollment_id := e.id, video_id := video_id
                     watch_status := WatchStatus.IN_PROGRESS
                     seconds_watched := 0, quiz_score := none
                     is_quiz_passed := false } := by
        unfold Db.findProgress at hp0 ⊢
        exact find?_append_singleton _ _ _ hp0 (by simp)
      split at h
      · simp at h
      · rename_i progress heq
        rw [Except.ok.injEq, Prod.mk.injEq, Prod.mk.injEq] at h
        obtain ⟨-, hprog, hres⟩ := h
        split at heq <;>
          [rw [findProgress_completion,
             findProgress_updateProgress _ e.id video_id _
               (by intro p; exact ⟨rfl, rfl⟩), hfind1] at heq;
           rw [findProgress_updateProgress _ e.id video_id _
               (by intro p; exact ⟨rfl, rfl⟩), hfind1] at heq] <;>
        · rw [Option.map_some', Option.some.injEq] at heq
          subst heq
          subst hprog
          subst hres
          refine ⟨gradeCount_eq_spec _ _, rfl, hpos, rfl, rfl, rfl, ?_⟩
          simp

/-- Counterexample to C1 as stated: the claim reads "missing keys treated
as no match", but grading substitutes the empty string for a missing key
and compares it normally, so a question whose correct answer trims to the
empty string is counted correct on an empty answer map: the code stores
`correct_count = 1`, `score = 100`, `is_quiz_passed = true`, where the
claim requires `correct_count = 0`, `score = 0`, `is_quiz_passed =
false`. -/
theorem C1_counterexample :
    Except.map
        (fun r => (r.2.2.correct_count, r.2.2.score, r.2.1.quiz_score,
          r.2.1.is_quiz_passed))
        (submit_quiz dbEmptyAnswer userC 10 [])
      = Except.ok (1, 100, some 100, true) := by
  rfl

/-! ## C2 — completion derivation -/

/-- The per-video check of the completion loop holds exactly when the
spec's `quizPassedFor` predicate does. -/
theorem passedCheck_iff (records : List VideoProgress) (v : Video) :
    ((match progressMapGet records v.id with
      | none => false
      | some vp => vp.is_quiz_passed) = true)
      ↔ quizPassedFor records v := by
  unfold quizPassedFor
  cases hg : progressMapGet records v.id with
  | none => simp
  | some vp => simp


/-- Setting `is_completed := true` on an already-completed enrollment is
the identity. -/
theorem enrollment_set_completed_self (e : Enrollment)
    (h : e.is_completed = true) :
    ({ e with is_completed := true } : Enrollment) = e := by
  cases e
  simp_all

/-- C2: completion derivation returns `all_passed` true exactly when the
course has at least one quiz-bearing video and every one of them has a
passing progress record of this enrollment; a course with zero
quiz-bearing videos short-circuits to `(db, false)` with no change; when
the derivation reports complete, the enrollment row ends up with
`is_completed = true`; and no enrollment ever goes from completed to not
completed. -/
theorem C2_completion_derivation (db : Db) (e : Enrollment) (pid : Nat)
    (pl : Playlist)
    (hp : db.findPlaylist pid = some pl)
    (he : db.findEnrollment e.user_id e.playlist_id = some e) :
    ((check_and_update_enrollment_completion db e pid).2 = true ↔
      ((db.playlistVideos pid).filter (fun v => v.has_quiz) ≠ [] ∧
        ∀ v ∈ (db.playlistVideos pid).filter (fun v => v.has_quiz),
          quizPassedFor (db.enrollmentProgresses e.id) v)) ∧
    ((db.playlistVideos pid).filter (fun v => v.has_quiz) = [] →
      check_and_update_enrollment_completion db e pid = (db, false)) ∧
    ((check_and_update_enrollment_completion db e pid).2 = true →
      (check_and_update_enrollment_completion db e pid).1.findEnrollment
          e.user_id e.playlist_id
        = some { e with is_completed := true }) ∧
    (∀ en ∈ db.enrollments, en.is_completed = true →
      ∃ en' ∈ (check_and_update_enrollment_completion db e pid).1.enrollments,
        en'.id = en.id ∧ en'.is_completed = true) := by
  have hbody : check_and_update_enrollment_completion db e pid
      = (if ((db.playlistVideos pid).filter (fun v => v.has_quiz)).isEmpty
          then (db, false)
         else
          let all_passed :=
            ((db.playlistVideos pid).filter (fun v => v.has_quiz)).all
              (fun v =>
                match progressMapGet (db.enrollmentProgresses e.id) v.id with
                | none => false
                | some vp => vp.is_quiz_passed)
          if all_passed ∧ ¬ e.is_completed then
            (db.updateEnrollment e.id
              (fun en => { en with is_completed := true }), all_passed)
          else (db, all_passed)) := by
    unfold check_and_update_enrollment_completion
    rw [hp]
  refine ⟨?_, ?_, ?_, ?_⟩
  · rw [hbody]
    by_cases hemp :
        ((db.playlistVideos pid).filter (fun v => v.has_quiz)).isEmpty = true
    · rw [if_pos hemp]
      rw [List.isEmpty_iff] at hemp
      simp [hemp]
    · rw [if_neg hemp]
      rw [List.isEmpty_iff] at hemp
      dsimp only
      constructor
      · intro hall
        have hall2 :
            ((db.playlistVideos pid).filter (fun v => v.has_quiz)).all
              (fun v =>
                match progressMapGet (db.enrollmentProgresses e.id) v.id with
                | none => false
                | some vp => vp.is_quiz_passed) = true := by
          split at hall
          · exact hall
          · exact hall
        refine ⟨hemp, ?_⟩
        intro v hv
        rw [← passedCheck_iff]
        exact List.all_eq_true.mp hall2 v hv
      · rintro ⟨-, hall⟩
        have hall2 :
            ((db.playlistVideos pid).filter (fun v => v.has_quiz)).all
              (fun v =>
                match progressMapGet (db.enrollmentProgresses e.id) v.id with
                | none => false
                | some vp => vp.is_quiz_passed) = true := by
          rw [List.all_eq_true]
          intro v hv
          rw [passedCheck_iff]
          exact hall v hv
        split
        · exact hall2
        · exact hall2
  · intro hnil
    rw [hbody, if_pos (by simp [hnil])]
  · intro htrue
    rw [hbody] at htrue ⊢
    by_cases hemp :
        ((db.playlistVideos pid).filter (fun v => v.has_quiz)).isEmpty = true
    · rw [if_pos hemp] at htrue
      simp at htrue
    · rw [if_neg hemp] at htrue ⊢
      dsimp only at htrue ⊢
      split at htrue
      · rename_i hguard
        split
        · rw [findEnrollment_updateEnrollment db e.user_id e.playlist_id e.id _
            (by intro en; exact ⟨rfl, rfl⟩), he]
          simp
        · rename_i hguard2
          exact absurd hguard hguard2
      · rename_i hguard
        split
        · rename_i hguard2
          exact absurd hguard2 hguard
        · rw [he]
          have hcomp : e.is_completed = true := by
            by_contra hc
            exact hguard ⟨htrue, hc⟩
          rw [enrollment_set_completed_self e hcomp]
  · intro en hen hcomp
    rw [hbody]
    by_cases hemp :
        ((db.playlistVideos pid).filter (fun v => v.has_quiz)).isEmpty = true
    · rw [if_pos hemp]
      exact ⟨en, hen, rfl, hcomp⟩
    · rw [if_neg hemp]
      dsimp only
      split
      · refine ⟨if en.id = e.id then { en with is_completed := true } else en,
          ?_, ?_, ?_⟩
        · show _ ∈ (Db.updateEnrollment db e.id _).enrollments
          unfold Db.updateEnrollment
          exact List.mem_map_of_mem _ hen
        · split
          · rfl
          · rfl
        · split
          · rfl
          · exact hcomp
      · exact ⟨en, hen, rfl, hcomp⟩

/-- Witness for C2: course 1 has one quiz video whose quiz is passed;
derivation reports complete and marks the enrollment. -/
theorem C2_witness :
    (check_and_update_enrollment_completion dbQuizPassed enrollC 1).2 = true ∧
    (check_and_update_enrollment_completion dbQuizPassed enrollC 1).1.findEnrollment 7 1
      = some { id := 100, user_id := 7, playlist_id := 1
               is_completed := true, certificate_url := none } := by
  have h := C2_completion_derivation dbQuizPassed enrollC 1
    { id := 1, title := "Course" } rfl rfl
  have hqv : (dbQuizPassed.playlistVideos 1).filter (fun v => v.has_quiz)
      = [videoQuizC] := rfl
  have h2 : (check_and_update_enrollment_completion dbQuizPassed enrollC 1).2
      = true := by
    rw [h.1, hqv]
    refine ⟨by simp, ?_⟩
    intro v hv
    rw [List.mem_singleton] at hv
    subst hv
    exact ⟨progQuizDone, rfl, rfl⟩
  exact ⟨h2, h.2.2.1 h2⟩

/-- Witness for C1 (amended): answers `{"0": "A", "1": "B"}` against
correct answers `["a", "B "]` — both count as correct, score 100,
passed. -/
theorem C1_witness :
    resQuizDone.correct_count
        = specCorrectCount [("0", "A"), ("1", "B")] 0
            (videoQuizC.quiz_data.getD []) ∧
    resQuizDone.total_questions = (videoQuizC.quiz_data.getD []).length ∧
    0 < (videoQuizC.quiz_data.getD []).length ∧
    resQuizDone.score
        = resQuizDone.correct_count * 100 / (videoQuizC.quiz_data.getD []).length ∧
    progQuizDone.quiz_score = some resQuizDone.score ∧
    progQuizDone.is_quiz_passed = resQuizDone.passed ∧
    (resQuizDone.passed = true ↔ 75 ≤ resQuizDone.score) :=
  C1_quiz_grading dbQuiz userC 10 [("0", "A"), ("1", "B")] dbQuizDone
    progQuizDone resQuizDone videoQuizC rfl rfl

end CredLyse
